import Mathlib

/-!
# cookiejar: the persistent jar over an in-memory jar and a document store

A shallow embedding of `persistent.go` and `storage.go`.

* A non-nil Go map is an association list with distinct keys (`AList`); where a map may be nil
  its type is `Option (AList ..)` with `none` for nil.  The index expression `m[k]` of a map of
  maps is `AList.lookup`, whose `none` is the nil map that Go yields for an absent key.  `range`
  visits an association list in list order; Go leaves that order unspecified, so statements
  about a `range` result are made up to permutation.
* The in-memory jar (`Jar`, `canonicalHost`, `jarKey`, `entry.id`) lives in `jar.go`, which is not
  one of the two files embedded here.  What `persistent.go` calls of it is bundled in `Engine`
  and every definition below takes an arbitrary `Engine`.
* The Firestore client is an external library; what `storage.go` calls of it is bundled in
  `Firestore`, a transition system on an arbitrary client state.
* `log.Printf` writes are not part of the state.  `time.Now()` is an explicit argument.
* `storage.calls` is a ghost field: the record of the `load` and `save` calls made so far.
-/

namespace Cookiejar

/-- Go `error` values; `nil` is `none` of `Option Error`. -/
abbrev Error := String

/-- Instants of `time.Time`. -/
abbrev Time := Nat

/-- The fields of `url.URL` the package reads (`u.Host`), with scheme and path. -/
structure URL where
  Scheme : String
  Host : String
  Path : String
deriving DecidableEq, Repr

/-- The `http.Cookie` structure; every field but `Name` and `Value` has Go's zero value as default. -/
structure Cookie where
  Name : String
  Value : String
  Path : String := ""
  Domain : String := ""
  Expires : Time := 0
  MaxAge : Int := 0
  Secure : Bool := false
  HttpOnly : Bool := false
  SameSite : Nat := 0
deriving DecidableEq, Repr

/-- Modelled from the spec: the type `entry` is declared in `jar.go`, which is not among the
embedded files.  The fields are those the spec lists for a stored cookie and for a record of the
legacy file: name, value, domain, path, expires, httpOnly, secure, sameSite, persistent. -/
structure entry where
  Name : String
  Value : String
  Domain : String
  Path : String
  Expires : Time
  HttpOnly : Bool
  Secure : Bool
  SameSite : String
  Persistent : Bool
deriving DecidableEq, Repr

/-- A non-nil `map[string]entry`: one partition document, from cookie id to entry. -/
abbrev Doc := AList (fun _ : String => entry)

/-- The field `entries map[string]map[string]entry` of the in-memory jar. -/
abbrev Entries := AList (fun _ : String => Doc)

/-- The in-memory `Jar`: `persistent.go` reads and writes its field `entries`; whatever else the
jar holds is `rest`. -/
structure Jar (ρ : Type) where
  entries : Entries
  rest : ρ

/-- What `persistent.go` uses of `jar.go`: the helpers `canonicalHost`, `jarKey` and `entry.id`,
and the jar methods `SetCookies`, `setCookies` and `Cookies`.  The methods take the jar and give
the jar back, since they act on a pointer; `SetCookies` and `Cookies` get the clock reading they
take as an argument.  `π` is the type of a `PublicSuffixList` value. -/
structure Engine (π ρ : Type) where
  canonicalHost : String → Except Error String
  jarKey : String → π → String
  entry_id : entry → String
  Jar_SetCookies : Jar ρ → URL → List Cookie → Time → Jar ρ
  Jar_setCookies : Jar ρ → URL → List Cookie → Time → Jar ρ
  Jar_Cookies : Jar ρ → URL → Time → List Cookie × Jar ρ

/-- What `storage.go` uses of the Firestore client, as transitions of the client state `σ`:
`Collection(c).Doc(name).Set(ctx, data)`, `Collection(c).Doc(name).Get(ctx)` giving a snapshot
of type `δ`, and `docsnap.DataTo(&data)` on a freshly made map. -/
structure Firestore (σ δ : Type) where
  docSet : σ → String → String → Option Doc → σ × Option Error
  docGet : σ → String → String → σ × Except Error δ
  dataTo : δ → Except Error Doc

/-- One call made on the backend, as recorded in the ghost field `storage.calls`. -/
inductive Call where
  | load (key : String)
  | save (key : String) (data : Option Doc)
deriving DecidableEq

/-- The `storage` structure: the Firestore client, the collection name, and the ghost record of
calls (the context is `context.Background()` throughout). -/
structure storage (σ : Type) where
  fsClient : σ
  collection : String
  calls : List Call

/-- The `PersistentJar` structure. -/
structure PersistentJar (π ρ σ : Type) where
  psl : π
  jar : Jar ρ
  backend : storage σ

variable {π ρ σ δ : Type}

/-- `storage.save`: sets the document named `key`; an error of `Set` is logged, and the function
ends in `return nil` on every path. -/
def storage.save (F : Firestore σ δ) (s : storage σ) (key : String) (data : Option Doc) :
    storage σ × Option Error :=
  let docName := key
  let r := F.docSet s.fsClient s.collection docName data
  let s1 : storage σ := { s with fsClient := r.1, calls := s.calls ++ [Call.save key data] }
  match r.2 with
  | some _ => (s1, none)
  | none => (s1, none)

/-- `storage.load`: gets the document named `key` and decodes it into a fresh map; both errors
are returned. -/
def storage.load (F : Firestore σ δ) (s : storage σ) (key : String) :
    storage σ × Except Error Doc :=
  let docName := key
  let r := F.docGet s.fsClient s.collection docName
  let s1 : storage σ := { s with fsClient := r.1, calls := s.calls ++ [Call.load key] }
  match r.2 with
  | .error err => (s1, .error err)
  | .ok docsnap =>
    match F.dataTo docsnap with
    | .error err => (s1, .error err)
    | .ok data => (s1, .ok data)

/-- `getKey`: the partition key of a URL. -/
def getKey (E : Engine π ρ) (u : URL) (psl : π) : Except Error String :=
  match E.canonicalHost u.Host with
  | .error err => .error err
  | .ok host =>
    let key := E.jarKey host psl
    if key = "" then .error "failed to get key from url" else .ok key

/-- The body of the loop of `loadFromStorage`: one cookie with the name and value of the entry. -/
def entryCookie (e : entry) : Cookie :=
  { Name := e.Name, Value := e.Value }

/-- `PersistentJar.loadFromStorage`. -/
def PersistentJar.loadFromStorage (E : Engine π ρ) (F : Firestore σ δ)
    (j : PersistentJar π ρ σ) (u : URL) : PersistentJar π ρ σ × Except Error (List Cookie) :=
  match getKey E u j.psl with
  | .error err => (j, .error err)
  | .ok key =>
    let r := storage.load F j.backend key
    match r.2 with
    | .error err => ({ j with backend := r.1 }, .error err)
    | .ok submap =>
      ({ j with backend := r.1 },
        .ok (submap.entries.foldl (fun cookies p => cookies ++ [entryCookie p.2]) []))

/-- `PersistentJar.saveToStorage`. -/
def PersistentJar.saveToStorage (E : Engine π ρ) (F : Firestore σ δ)
    (j : PersistentJar π ρ σ) (u : URL) : PersistentJar π ρ σ × Option Error :=
  match getKey E u j.psl with
  | .error err => (j, some err)
  | .ok key =>
    let r := storage.save F j.backend key (j.jar.entries.lookup key)
    ({ j with backend := r.1 }, r.2)

/-- `PersistentJar.SetCookies`; an error of `saveToStorage` is logged and dropped. -/
def PersistentJar.SetCookies (E : Engine π ρ) (F : Firestore σ δ)
    (j : PersistentJar π ρ σ) (u : URL) (cookies : List Cookie) (now : Time) :
    PersistentJar π ρ σ :=
  let j1 : PersistentJar π ρ σ := { j with jar := E.Jar_SetCookies j.jar u cookies now }
  (PersistentJar.saveToStorage E F j1 u).1

/-- `PersistentJar.Cookies`; `t0` is the clock reading inside `jar.Cookies`, `t1` the one passed
to `jar.setCookies`. -/
def PersistentJar.Cookies (E : Engine π ρ) (F : Firestore σ δ)
    (j : PersistentJar π ρ σ) (u : URL) (t0 t1 : Time) :
    List Cookie × PersistentJar π ρ σ :=
  let r := E.Jar_Cookies j.jar u t0
  let cookies := r.1
  let j1 : PersistentJar π ρ σ := { j with jar := r.2 }
  if cookies.length = 0 then
    let l := PersistentJar.loadFromStorage E F j1 u
    match l.2 with
    | .error _ => ([], l.1)
    | .ok c => (c, { l.1 with jar := E.Jar_setCookies l.1.jar u c t1 })
  else (cookies, j1)

/-- What reading the legacy file gave, in the order `LoadFromFile` tests it. -/
inductive FileRead where
  | dirNotExist
  | openNotExist
  | openError (err : Error)
  | emptyFile
  | decodeError (err : Error)
  | invalidFormat
  | decoded (entries : List entry)

/-- The body of the loop of `LoadFromFile`, on the jar's field `entries`. -/
def loadEntry (E : Engine π ρ) (psl : π) (entries : Entries) (e : entry) : Entries :=
  if e.Domain = "" then entries
  else
    match E.canonicalHost e.Domain with
    | .error _ => entries
    | .ok host =>
      let key := E.jarKey host psl
      let id := E.entry_id e
      match entries.lookup key with
      | none => entries.insert key (AList.singleton id e)
      | some submap => entries.insert key (submap.insert id e)

/-- `PersistentJar.LoadFromFile`, given what reading the file gave. -/
def PersistentJar.LoadFromFile (E : Engine π ρ) (j : PersistentJar π ρ σ) (f : FileRead) :
    PersistentJar π ρ σ × Option Error :=
  match f with
  | .dirNotExist => (j, none)
  | .openNotExist => (j, none)
  | .openError err => (j, some err)
  | .emptyFile => (j, none)
  | .decodeError err => (j, some err)
  | .invalidFormat => (j, none)
  | .decoded entries =>
    ({ j with jar := { j.jar with entries := entries.foldl (loadEntry E j.psl) j.jar.entries } },
      none)

/-! ## Notions the properties are stated with -/

/-- The entry the jar holds under a partition key and a cookie id, if any. -/
def lookupEntry (entries : Entries) (key id : String) : Option entry :=
  (entries.lookup key).bind (fun submap => submap.lookup id)

/-- A legacy record that `LoadFromFile` skips: its domain is empty or has no canonical host. -/
def skipped (E : Engine π ρ) (e : entry) : Bool :=
  e.Domain = "" ||
    match E.canonicalHost e.Domain with
    | .error _ => true
    | .ok _ => false

/-- A legacy record that is imported under the partition `key` with identity `id`: its domain
is not empty and has a canonical host whose jar key is `key`, and its id is `id`. -/
def importedAt (E : Engine π ρ) (psl : π) (key id : String) (e : entry) : Bool :=
  e.Domain ≠ "" &&
    (match E.canonicalHost e.Domain with
    | .error _ => false
    | .ok host => E.jarKey host psl = key) &&
    E.entry_id e = id

/-- Modelled from the spec: `entry.id` is declared in `jar.go`; the spec says the identity of an
entry is derived from (name, domain, path).  An engine has this property when two entries with
the same name, domain and path have the same id. -/
def IdFromNameDomainPath (E : Engine π ρ) : Prop :=
  ∀ a b : entry, a.Name = b.Name → a.Domain = b.Domain → a.Path = b.Path →
    E.entry_id a = E.entry_id b

/-- Modelled from the spec: `canonicalHost` and `jarKey` are declared in `jar.go`; the spec says
an empty host cannot be canonicalized into a valid key.  An engine has this property when
`canonicalHost ""` fails or gives a host whose jar key is empty. -/
def EmptyHostHasNoKey (E : Engine π ρ) (psl : π) : Prop :=
  match E.canonicalHost "" with
  | .error _ => True
  | .ok host => E.jarKey host psl = ""

/-- Modelled from the spec: the matching engine of `jar.go` decides which cookies it admits and
which it returns for a URL.  It serves `cookies` back for `u` from `jar` when, once they are
applied for `u` at `t1`, a read for `u` at `t2` returns them, in any order. -/
def ServesBack (E : Engine π ρ) (jar : Jar ρ) (u : URL) (cookies : List Cookie)
    (t1 t2 : Time) : Prop :=
  (E.Jar_Cookies (E.Jar_setCookies jar u cookies t1) u t2).1.Perm cookies

/-! ## A small engine and two stores, to evaluate the definitions at concrete inputs -/

/-- The entry `memEngine` makes of a cookie set for `u`. -/
def memEntry (u : URL) (c : Cookie) : entry :=
  { Name := c.Name, Value := c.Value, Domain := u.Host, Path := "/", Expires := c.Expires,
    HttpOnly := c.HttpOnly, Secure := c.Secure, SameSite := "", Persistent := false }

/-- The id `memEngine` gives an entry. -/
def memId (e : entry) : String :=
  e.Domain ++ ";" ++ e.Path ++ ";" ++ e.Name

/-- Sets one cookie in the partition of `u.Host`, under the id of its entry. -/
def memSetOne (u : URL) (entries : Entries) (c : Cookie) : Entries :=
  match entries.lookup u.Host with
  | none => entries.insert u.Host (AList.singleton (memId (memEntry u c)) (memEntry u c))
  | some submap => entries.insert u.Host (submap.insert (memId (memEntry u c)) (memEntry u c))

/-- Modelled from the spec: a jar engine with per-partition maps from identity to entry, where a
set cookie creates or overwrites the entry of its identity and a read returns the partition of
the URL.  The host is its own canonical form and its own key, and the empty host is refused. -/
def memEngine : Engine Unit Unit where
  canonicalHost := fun host => if host = "" then .error "empty host" else .ok host
  jarKey := fun host _ => host
  entry_id := memId
  Jar_SetCookies := fun jar u cookies _ =>
    { jar with entries := cookies.foldl (memSetOne u) jar.entries }
  Jar_setCookies := fun jar u cookies _ =>
    { jar with entries := cookies.foldl (memSetOne u) jar.entries }
  Jar_Cookies := fun jar u _ =>
    (match jar.entries.lookup u.Host with
      | none => []
      | some submap => (submap.entries.map (fun p => entryCookie p.2)).reverse, jar)

/-- A store that keeps the documents it is given, by name. -/
def memStore : Firestore Entries Doc where
  docSet := fun s _ name data =>
    match data with
    | none => (s, some "nil data")
    | some d => (s.insert name d, none)
  docGet := fun s _ name =>
    match s.lookup name with
    | none => (s, .error "not found")
    | some d => (s, .ok d)
  dataTo := fun d => .ok d

/-- A store that is unreachable: every operation fails. -/
def downStore : Firestore Entries Doc where
  docSet := fun s _ _ _ => (s, some "unavailable")
  docGet := fun s _ _ => (s, .error "unavailable")
  dataTo := fun _ => .error "unavailable"

/-- The URL of the examples. -/
def exampleURL : URL := { Scheme := "https", Host := "example.com", Path := "/" }

/-- A legacy record or stored entry of the examples. -/
def exampleEntry (name value domain : String) : entry :=
  { Name := name, Value := value, Domain := domain, Path := "/", Expires := 0,
    HttpOnly := false, Secure := false, SameSite := "", Persistent := false }

/-- A persistent jar with nothing in memory, over a client state `s`. -/
def emptyJar (s : Entries) : PersistentJar Unit Unit Entries :=
  { psl := (), jar := { entries := ∅, rest := () },
    backend := { fsClient := s, collection := "cookies", calls := [] } }

/-- The first cookie of the examples; the three have different names. -/
def cookieA : Cookie := { Name := "a", Value := "1" }

/-- The second cookie of the examples. -/
def cookieB : Cookie := { Name := "b", Value := "2" }

/-- The third cookie of the examples. -/
def cookieC : Cookie := { Name := "c", Value := "3" }

/-- A persistent jar that holds `cookieA` for `exampleURL` in memory. -/
def warmJar : PersistentJar Unit Unit Entries :=
  { psl := (), jar := memEngine.Jar_SetCookies { entries := ∅, rest := () } exampleURL [cookieA] 0,
    backend := { fsClient := ∅, collection := "cookies", calls := [] } }

/-- A backend with an empty client state and no call made. -/
def freshBackend : storage Entries :=
  { fsClient := ∅, collection := "cookies", calls := [] }

/-- A remote partition with one entry, named like `exampleURL`'s key. -/
def exampleDoc : Doc :=
  AList.singleton "example.com;/;sid" (exampleEntry "sid" "1" "example.com")

/-- A client state holding `exampleDoc` for the key of `exampleURL`. -/
def exampleRemote : Entries :=
  AList.singleton "example.com" exampleDoc

/-- A remote partition with two entries named `sid` that differ in path and value. -/
def twoPathDoc : Doc :=
  (AList.singleton "example.com;/;sid" (exampleEntry "sid" "1" "example.com")).insert
    "example.com;/a;sid"
    { Name := "sid", Value := "2", Domain := "example.com", Path := "/a", Expires := 0,
      HttpOnly := false, Secure := false, SameSite := "", Persistent := false }

/-- A client state holding `twoPathDoc` for the key of `exampleURL`. -/
def twoPathRemote : Entries :=
  AList.singleton "example.com" twoPathDoc

/-! ## The store adapter -/

theorem storage_save_calls (F : Firestore σ δ) (s : storage σ) (key : String)
    (data : Option Doc) :
    (storage.save F s key data).1.calls = s.calls ++ [Call.save key data] ∧
      (storage.save F s key data).1.fsClient = (F.docSet s.fsClient s.collection key data).1 ∧
      (storage.save F s key data).1.collection = s.collection := by
  unfold storage.save
  cases h : (F.docSet s.fsClient s.collection key data).2 <;> simp [h]

theorem storage_save_result (F : Firestore σ δ) (s : storage σ) (key : String)
    (data : Option Doc) : (storage.save F s key data).2 = none := by
  unfold storage.save
  cases h : (F.docSet s.fsClient s.collection key data).2 <;> simp [h]

/-- C7, what the code does: `storage.save` returns nil for every key and document, whatever the
document set operation returned; so it does on the unreachable store, whose set operation fails
for `exampleDoc` under the key `example.com`. -/
theorem storage_save_returns_nil (F : Firestore σ δ) (s : storage σ) (key : String)
    (data : Option Doc) :
    (storage.save F s key data).2 = none ∧
      (downStore.docSet ∅ "cookies" "example.com" (some exampleDoc)).2 = some "unavailable" ∧
      (storage.save downStore { fsClient := ∅, collection := "cookies", calls := [] }
          "example.com" (some exampleDoc)).2 = none :=
  ⟨storage_save_result F s key data, rfl, storage_save_result _ _ _ _⟩

/-! ## Key derivation -/

/-- C8: `getKey` returns an error exactly when `canonicalHost` fails on `u.Host` or the jar key
of the canonical host is empty; a key returned without error is not empty and is the jar key of
the canonical host; the result is the same for every URL with the same host; and a URL with an
empty host gets an error, the empty host having no valid key. -/
theorem getKey_spec (E : Engine π ρ) (u : URL) (psl : π) :
    ((∃ err, getKey E u psl = .error err) ↔
        ((∃ err, E.canonicalHost u.Host = .error err) ∨
          ∃ host, E.canonicalHost u.Host = .ok host ∧ E.jarKey host psl = "")) ∧
      (∀ key, getKey E u psl = .ok key →
        key ≠ "" ∧ ∃ host, E.canonicalHost u.Host = .ok host ∧ key = E.jarKey host psl) ∧
      (∀ u2 : URL, u2.Host = u.Host → getKey E u2 psl = getKey E u psl) ∧
      (EmptyHostHasNoKey E psl → u.Host = "" → ∃ err, getKey E u psl = .error err) := by
  refine ⟨?_, ?_, ?_, ?_⟩
  · unfold getKey
    cases h : E.canonicalHost u.Host with
    | error e => simp
    | ok host =>
      by_cases hk : E.jarKey host psl = "" <;> simp [hk]
  · intro key hkey
    unfold getKey at hkey
    cases h : E.canonicalHost u.Host with
    | error e => simp [h] at hkey
    | ok host =>
      by_cases hk : E.jarKey host psl = ""
      · simp [h, hk] at hkey
      · simp [h, hk] at hkey
        subst hkey
        exact ⟨hk, host, rfl, rfl⟩
  · intro u2 h2
    unfold getKey
    rw [h2]
  · intro hempty hhost
    unfold EmptyHostHasNoKey at hempty
    unfold getKey
    rw [hhost]
    cases h : E.canonicalHost "" with
    | error e => exact ⟨e, rfl⟩
    | ok host =>
      rw [h] at hempty
      simp only at hempty
      simp [hempty]

/-- C8 at a concrete input: for the engine `memEngine`, a URL with an empty host gets an error. -/
theorem getKey_spec_witness :
    ∃ err, getKey memEngine { Scheme := "https", Host := "", Path := "/" } () = .error err :=
  (getKey_spec memEngine { Scheme := "https", Host := "", Path := "/" } ()).2.2.2
    (by simp [EmptyHostHasNoKey, memEngine]) rfl

/-! ## The write path -/

theorem saveToStorage_ok (E : Engine π ρ) (F : Firestore σ δ) (j : PersistentJar π ρ σ)
    (u : URL) (key : String) (hkey : getKey E u j.psl = .ok key) :
    (PersistentJar.saveToStorage E F j u).1 =
      { j with backend := (storage.save F j.backend key (j.jar.entries.lookup key)).1 } := by
  unfold PersistentJar.saveToStorage
  rw [hkey]

theorem saveToStorage_error (E : Engine π ρ) (F : Firestore σ δ) (j : PersistentJar π ρ σ)
    (u : URL) (err : Error) (hkey : getKey E u j.psl = .error err) :
    PersistentJar.saveToStorage E F j u = (j, some err) := by
  unfold PersistentJar.saveToStorage
  rw [hkey]

theorem SetCookies_jar (E : Engine π ρ) (F : Firestore σ δ) (j : PersistentJar π ρ σ)
    (u : URL) (cookies : List Cookie) (now : Time) :
    (PersistentJar.SetCookies E F j u cookies now).jar = E.Jar_SetCookies j.jar u cookies now ∧
      (PersistentJar.SetCookies E F j u cookies now).psl = j.psl := by
  unfold PersistentJar.SetCookies PersistentJar.saveToStorage
  cases h : getKey E u j.psl <;> simp [h]

theorem SetCookies_backend (E : Engine π ρ) (F : Firestore σ δ) (j : PersistentJar π ρ σ)
    (u : URL) (cookies : List Cookie) (now : Time) (key : String)
    (hkey : getKey E u j.psl = .ok key) :
    (PersistentJar.SetCookies E F j u cookies now).backend =
      (storage.save F j.backend key
        ((E.Jar_SetCookies j.jar u cookies now).entries.lookup key)).1 := by
  unfold PersistentJar.SetCookies
  simp only []
  rw [saveToStorage_ok E F
    { psl := j.psl, jar := E.Jar_SetCookies j.jar u cookies now, backend := j.backend } u key
    hkey]

/-- C1: when `getKey` gives `key` for `u`, `SetCookies(u, cs)` leaves in memory the jar to which
`cs` has been applied, and makes exactly one call on the backend: a save under `key` of
`jar.entries[key]` as it stands after the update, which reaches the document set operation once.
Hence after `SetCookies(u, cs)` and then `SetCookies(u, c3)` the two calls made are two saves
under `key`, the second of the partition of the jar to which `cs` and then `c3` were applied:
every entry the jar then holds under `key` is in the document of that last save. -/
theorem SetCookies_write_through (E : Engine π ρ) (F : Firestore σ δ)
    (j : PersistentJar π ρ σ) (u : URL) (cs c3 : List Cookie) (now now2 : Time) (key : String)
    (hkey : getKey E u j.psl = .ok key) :
    (PersistentJar.SetCookies E F j u cs now).jar = E.Jar_SetCookies j.jar u cs now ∧
      (PersistentJar.SetCookies E F j u cs now).backend.calls =
        j.backend.calls ++
          [Call.save key ((E.Jar_SetCookies j.jar u cs now).entries.lookup key)] ∧
      (PersistentJar.SetCookies E F j u cs now).backend.fsClient =
        (F.docSet j.backend.fsClient j.backend.collection key
          ((E.Jar_SetCookies j.jar u cs now).entries.lookup key)).1 ∧
      (PersistentJar.SetCookies E F (PersistentJar.SetCookies E F j u cs now) u c3
          now2).backend.calls =
        j.backend.calls ++
          [Call.save key ((E.Jar_SetCookies j.jar u cs now).entries.lookup key),
            Call.save key
              ((E.Jar_SetCookies (E.Jar_SetCookies j.jar u cs now) u c3
                now2).entries.lookup key)] ∧
      ∀ id e,
        lookupEntry (E.Jar_SetCookies (E.Jar_SetCookies j.jar u cs now) u c3 now2).entries
            key id = some e →
          ∃ d, (PersistentJar.SetCookies E F (PersistentJar.SetCookies E F j u cs now) u c3
                now2).backend.calls.getLast? = some (Call.save key (some d)) ∧
            d.lookup id = some e := by
  have h1 := SetCookies_backend E F j u cs now key hkey
  have hj := SetCookies_jar E F j u cs now
  have hkey2 : getKey E u (PersistentJar.SetCookies E F j u cs now).psl = .ok key := by
    rw [hj.2]; exact hkey
  have h2 := SetCookies_backend E F (PersistentJar.SetCookies E F j u cs now) u c3 now2 key hkey2
  have hc2 : (PersistentJar.SetCookies E F (PersistentJar.SetCookies E F j u cs now) u c3
      now2).backend.calls =
        j.backend.calls ++
          [Call.save key ((E.Jar_SetCookies j.jar u cs now).entries.lookup key),
            Call.save key
              ((E.Jar_SetCookies (E.Jar_SetCookies j.jar u cs now) u c3
                now2).entries.lookup key)] := by
    rw [h2, (storage_save_calls F _ key _).1, h1, (storage_save_calls F _ key _).1, hj.1]
    simp
  refine ⟨hj.1, ?_, ?_, hc2, ?_⟩
  · rw [h1]; exact (storage_save_calls F _ key _).1
  · rw [h1]; exact (storage_save_calls F _ key _).2.1
  · intro id e he
    unfold lookupEntry at he
    cases hd : (E.Jar_SetCookies (E.Jar_SetCookies j.jar u cs now) u c3 now2).entries.lookup
        key with
    | none => rw [hd] at he; simp at he
    | some d =>
      rw [hd] at he
      refine ⟨d, ?_, by simpa using he⟩
      rw [hc2, hd, List.getLast?_append]
      simp [List.getLast?_cons_cons]

/-- C6: `SetCookies(u, cs)` is total and leaves in memory exactly the jar that the in-memory
jar's own `SetCookies(u, cs)` gives; this is so over any store and any client state, so two
runs that differ only in the backend end with the same jar. -/
theorem SetCookies_write_tolerance {σ2 δ2 : Type} (E : Engine π ρ) (F : Firestore σ δ)
    (F2 : Firestore σ2 δ2) (j : PersistentJar π ρ σ) (b2 : storage σ2) (u : URL)
    (cs : List Cookie) (now : Time) :
    (PersistentJar.SetCookies E F j u cs now).jar = E.Jar_SetCookies j.jar u cs now ∧
      (PersistentJar.SetCookies E F2 { psl := j.psl, jar := j.jar, backend := b2 } u cs
          now).jar =
        (PersistentJar.SetCookies E F j u cs now).jar := by
  rw [(SetCookies_jar E F j u cs now).1, (SetCookies_jar E F2 _ u cs now).1]
  exact ⟨rfl, rfl⟩

/-! ## The read path -/

theorem foldl_append_singleton {α β : Type} (f : α → β) (l : List α) (init : List β) :
    l.foldl (fun acc p => acc ++ [f p]) init = init ++ l.map f := by
  induction l generalizing init with
  | nil => simp
  | cons a l ih => simp [ih]

theorem storage_load_calls (F : Firestore σ δ) (s : storage σ) (key : String) :
    (storage.load F s key).1.calls = s.calls ++ [Call.load key] := by
  unfold storage.load
  cases h : (F.docGet s.fsClient s.collection key).2 with
  | error e => simp [h]
  | ok snap => cases h2 : F.dataTo snap <;> simp [h, h2]

theorem Cookies_hit (E : Engine π ρ) (F : Firestore σ δ) (j : PersistentJar π ρ σ) (u : URL)
    (t0 t1 : Time) (hhit : (E.Jar_Cookies j.jar u t0).1 ≠ []) :
    PersistentJar.Cookies E F j u t0 t1 =
      ((E.Jar_Cookies j.jar u t0).1, { j with jar := (E.Jar_Cookies j.jar u t0).2 }) := by
  unfold PersistentJar.Cookies
  have hlen : ¬ (E.Jar_Cookies j.jar u t0).1.length = 0 := by
    simpa [List.length_eq_zero] using hhit
  simp [hlen]

theorem Cookies_miss (E : Engine π ρ) (F : Firestore σ δ) (j : PersistentJar π ρ σ) (u : URL)
    (t0 t1 : Time) (hmiss : (E.Jar_Cookies j.jar u t0).1 = []) :
    PersistentJar.Cookies E F j u t0 t1 =
      match (PersistentJar.loadFromStorage E F
          { j with jar := (E.Jar_Cookies j.jar u t0).2 } u).2 with
      | .error _ =>
        ([], (PersistentJar.loadFromStorage E F
          { j with jar := (E.Jar_Cookies j.jar u t0).2 } u).1)
      | .ok c =>
        (c, { (PersistentJar.loadFromStorage E F
                { j with jar := (E.Jar_Cookies j.jar u t0).2 } u).1 with
              jar := E.Jar_setCookies
                (PersistentJar.loadFromStorage E F
                  { j with jar := (E.Jar_Cookies j.jar u t0).2 } u).1.jar u c t1 }) := by
  unfold PersistentJar.Cookies
  simp [hmiss]

theorem loadFromStorage_key_error (E : Engine π ρ) (F : Firestore σ δ)
    (j : PersistentJar π ρ σ) (u : URL) (err : Error)
    (hkey : getKey E u j.psl = .error err) :
    PersistentJar.loadFromStorage E F j u = (j, .error err) := by
  unfold PersistentJar.loadFromStorage
  rw [hkey]

theorem loadFromStorage_load_error (E : Engine π ρ) (F : Firestore σ δ)
    (j : PersistentJar π ρ σ) (u : URL) (key : String) (err : Error)
    (hkey : getKey E u j.psl = .ok key)
    (hload : (storage.load F j.backend key).2 = .error err) :
    PersistentJar.loadFromStorage E F j u =
      ({ j with backend := (storage.load F j.backend key).1 }, .error err) := by
  unfold PersistentJar.loadFromStorage
  rw [hkey]
  simp [hload]

theorem loadFromStorage_ok (E : Engine π ρ) (F : Firestore σ δ)
    (j : PersistentJar π ρ σ) (u : URL) (key : String) (d : Doc)
    (hkey : getKey E u j.psl = .ok key)
    (hload : (storage.load F j.backend key).2 = .ok d) :
    PersistentJar.loadFromStorage E F j u =
      ({ j with backend := (storage.load F j.backend key).1 },
        .ok (d.entries.map (fun p => entryCookie p.2))) := by
  unfold PersistentJar.loadFromStorage
  rw [hkey]
  simp [hload, foldl_append_singleton]

theorem Cookies_loaded (E : Engine π ρ) (F : Firestore σ δ) (j : PersistentJar π ρ σ)
    (u : URL) (t0 t1 : Time) (key : String) (d : Doc)
    (hmiss : (E.Jar_Cookies j.jar u t0).1 = [])
    (hkey : getKey E u j.psl = .ok key)
    (hload : (storage.load F j.backend key).2 = .ok d) :
    PersistentJar.Cookies E F j u t0 t1 =
      (d.entries.map (fun p => entryCookie p.2),
        { psl := j.psl,
          jar := E.Jar_setCookies (E.Jar_Cookies j.jar u t0).2 u
            (d.entries.map (fun p => entryCookie p.2)) t1,
          backend := (storage.load F j.backend key).1 }) := by
  rw [Cookies_miss E F j u t0 t1 hmiss,
    loadFromStorage_ok E F
      { psl := j.psl, jar := (E.Jar_Cookies j.jar u t0).2, backend := j.backend } u key d hkey
      hload]

/-- C4: when the in-memory jar returns one or more cookies for `u`, `Cookies(u)` returns exactly
that list, leaves the backend as it was (no call recorded, client state untouched), and leaves
in memory the jar as the in-memory read left it, with no backfill applied; the result and the
jar are the same over any other store and backend state. -/
theorem Cookies_fast_path {σ2 δ2 : Type} (E : Engine π ρ) (F : Firestore σ δ)
    (F2 : Firestore σ2 δ2) (j : PersistentJar π ρ σ) (b2 : storage σ2) (u : URL)
    (t0 t1 t2 : Time) (hhit : (E.Jar_Cookies j.jar u t0).1 ≠ []) :
    (PersistentJar.Cookies E F j u t0 t1).1 = (E.Jar_Cookies j.jar u t0).1 ∧
      (PersistentJar.Cookies E F j u t0 t1).2.backend = j.backend ∧
      (PersistentJar.Cookies E F j u t0 t1).2.jar = (E.Jar_Cookies j.jar u t0).2 ∧
      (PersistentJar.Cookies E F2 { psl := j.psl, jar := j.jar, backend := b2 } u t0 t2).1 =
        (PersistentJar.Cookies E F j u t0 t1).1 ∧
      (PersistentJar.Cookies E F2 { psl := j.psl, jar := j.jar, backend := b2 } u t0 t2).2.jar =
        (PersistentJar.Cookies E F j u t0 t1).2.jar ∧
      (PersistentJar.Cookies E F2 { psl := j.psl, jar := j.jar, backend := b2 } u t0
        t2).2.backend = b2 := by
  rw [Cookies_hit E F j u t0 t1 hhit,
    Cookies_hit E F2 { psl := j.psl, jar := j.jar, backend := b2 } u t0 t2 hhit]
  exact ⟨rfl, rfl, rfl, rfl, rfl, rfl⟩

/-- C5: when the in-memory jar yields no cookies for `u`: if key derivation fails, `Cookies(u)`
returns the empty list, makes no call on the backend and leaves the jar as the in-memory read
left it; if `backend.load` returns an error, `Cookies(u)` returns the empty list, the one call
made is that load, and the jar is as the in-memory read left it (no backfill).  The result type
of `Cookies` has no error. -/
theorem Cookies_miss_tolerance (E : Engine π ρ) (F : Firestore σ δ) (j : PersistentJar π ρ σ)
    (u : URL) (t0 t1 : Time) (hmiss : (E.Jar_Cookies j.jar u t0).1 = []) :
    (∀ err, getKey E u j.psl = .error err →
        (PersistentJar.Cookies E F j u t0 t1).1 = [] ∧
          (PersistentJar.Cookies E F j u t0 t1).1.length = 0 ∧
          (PersistentJar.Cookies E F j u t0 t1).2.backend = j.backend ∧
          (PersistentJar.Cookies E F j u t0 t1).2.jar = (E.Jar_Cookies j.jar u t0).2) ∧
      (∀ key err, getKey E u j.psl = .ok key →
        (storage.load F j.backend key).2 = .error err →
        (PersistentJar.Cookies E F j u t0 t1).1 = [] ∧
          (PersistentJar.Cookies E F j u t0 t1).1.length = 0 ∧
          (PersistentJar.Cookies E F j u t0 t1).2.backend.calls =
            j.backend.calls ++ [Call.load key] ∧
          (PersistentJar.Cookies E F j u t0 t1).2.jar = (E.Jar_Cookies j.jar u t0).2) := by
  constructor
  · intro err hkey
    rw [Cookies_miss E F j u t0 t1 hmiss,
      loadFromStorage_key_error E F
        { psl := j.psl, jar := (E.Jar_Cookies j.jar u t0).2, backend := j.backend } u err hkey]
    exact ⟨rfl, rfl, rfl, rfl⟩
  · intro key err hkey hload
    rw [Cookies_miss E F j u t0 t1 hmiss,
      loadFromStorage_load_error E F
        { psl := j.psl, jar := (E.Jar_Cookies j.jar u t0).2, backend := j.backend } u key err
        hkey hload]
    exact ⟨rfl, rfl, storage_load_calls F j.backend key, rfl⟩

/-- C3: when the in-memory jar yields no cookies for `u`, `getKey` gives `key` and
`backend.load(key)` gives the document `d`, `Cookies(u)` returns, as a multiset, one cookie with
the name and value of each entry of `d` (so as many cookies as `d` has entries), and leaves in
memory the jar to which `jar.setCookies(u, list, now)` was applied with exactly the returned
list, after the in-memory read; the one call made on the backend is that load. -/
theorem Cookies_read_through (E : Engine π ρ) (F : Firestore σ δ) (j : PersistentJar π ρ σ)
    (u : URL) (t0 t1 : Time) (key : String) (d : Doc)
    (hmiss : (E.Jar_Cookies j.jar u t0).1 = [])
    (hkey : getKey E u j.psl = .ok key)
    (hload : (storage.load F j.backend key).2 = .ok d) :
    ((PersistentJar.Cookies E F j u t0 t1).1 : Multiset Cookie) =
        Multiset.map (fun p : Sigma (fun _ : String => entry) =>
          ({ Name := p.2.Name, Value := p.2.Value } : Cookie)) (d.entries : Multiset _) ∧
      (PersistentJar.Cookies E F j u t0 t1).1.length = d.entries.length ∧
      (PersistentJar.Cookies E F j u t0 t1).2.jar =
        E.Jar_setCookies (E.Jar_Cookies j.jar u t0).2 u
          (PersistentJar.Cookies E F j u t0 t1).1 t1 ∧
      (PersistentJar.Cookies E F j u t0 t1).2.backend.calls =
        j.backend.calls ++ [Call.load key] := by
  rw [Cookies_loaded E F j u t0 t1 key d hmiss hkey hload]
  refine ⟨?_, by simp, rfl, storage_load_calls F j.backend key⟩
  simp [entryCookie]

theorem Cookies_failing_store (E : Engine π ρ) (F : Firestore σ δ) (j : PersistentJar π ρ σ)
    (u : URL) (t0 t1 : Time) (key : String)
    (hkey : getKey E u j.psl = .ok key)
    (hfail : ∀ (s : storage σ) (k : String), ∃ err, (storage.load F s k).2 = .error err) :
    (PersistentJar.Cookies E F j u t0 t1).1 = (E.Jar_Cookies j.jar u t0).1 ∧
      (PersistentJar.Cookies E F j u t0 t1).2.jar = (E.Jar_Cookies j.jar u t0).2 ∧
      ((PersistentJar.Cookies E F j u t0 t1).1 ≠ [] →
        (PersistentJar.Cookies E F j u t0 t1).2.backend = j.backend) := by
  by_cases hhit : (E.Jar_Cookies j.jar u t0).1 = []
  · obtain ⟨err, herr⟩ := hfail j.backend key
    rw [Cookies_miss E F j u t0 t1 hhit,
      loadFromStorage_load_error E F
        { psl := j.psl, jar := (E.Jar_Cookies j.jar u t0).2, backend := j.backend } u key err
        hkey herr]
    exact ⟨hhit.symm, rfl, fun h => absurd rfl h⟩
  · rw [Cookies_hit E F j u t0 t1 hhit]
    exact ⟨rfl, rfl, fun _ => rfl⟩

/-- C2, as amended: from a jar with no entries, for which the in-memory read of `u` gives
nothing, and a remote partition for the key of `u` that loads as the non-empty document `d`,
the first `Cookies(u)` returns one cookie with the name and value of each entry of `d` and
leaves in memory the jar to which exactly that list was applied for `u`.  A second `Cookies(u)`
made while every `backend.load` fails returns exactly what the in-memory jar then returns for
`u`, applies no backfill, and makes no call on the backend when it returns any cookie.  So it
returns the cookies of the first call, up to order, exactly when the in-memory jar serves back
for `u` the name and value cookies applied to it. -/
theorem Cookies_backfill {σ2 δ2 : Type} (E : Engine π ρ) (F : Firestore σ δ)
    (F2 : Firestore σ2 δ2) (j : PersistentJar π ρ σ) (u : URL) (t0 t1 t2 t3 : Time)
    (key : String) (d : Doc)
    (hempty : j.jar.entries = ∅)
    (hnone : j.jar.entries = ∅ → (E.Jar_Cookies j.jar u t0).1 = [])
    (hkey : getKey E u j.psl = .ok key)
    (hload : (storage.load F j.backend key).2 = .ok d)
    (hne : d.entries ≠ [])
    (hfail : ∀ (s : storage σ2) (k : String), ∃ err, (storage.load F2 s k).2 = .error err)
    (b2 : storage σ2) :
    (PersistentJar.Cookies E F j u t0 t1).1 =
        d.entries.map (fun p => ({ Name := p.2.Name, Value := p.2.Value } : Cookie)) ∧
      (PersistentJar.Cookies E F j u t0 t1).1 ≠ [] ∧
      (PersistentJar.Cookies E F j u t0 t1).2.jar =
        E.Jar_setCookies (E.Jar_Cookies j.jar u t0).2 u
          (d.entries.map (fun p => ({ Name := p.2.Name, Value := p.2.Value } : Cookie))) t1 ∧
      (PersistentJar.Cookies E F2
          { psl := j.psl, jar := (PersistentJar.Cookies E F j u t0 t1).2.jar, backend := b2 }
          u t2 t3).1 =
        (E.Jar_Cookies (PersistentJar.Cookies E F j u t0 t1).2.jar u t2).1 ∧
      (PersistentJar.Cookies E F2
          { psl := j.psl, jar := (PersistentJar.Cookies E F j u t0 t1).2.jar, backend := b2 }
          u t2 t3).2.jar =
        (E.Jar_Cookies (PersistentJar.Cookies E F j u t0 t1).2.jar u t2).2 ∧
      ((PersistentJar.Cookies E F2
          { psl := j.psl, jar := (PersistentJar.Cookies E F j u t0 t1).2.jar, backend := b2 }
          u t2 t3).1 ≠ [] →
        (PersistentJar.Cookies E F2
          { psl := j.psl, jar := (PersistentJar.Cookies E F j u t0 t1).2.jar, backend := b2 }
          u t2 t3).2.backend = b2) ∧
      (((PersistentJar.Cookies E F2
          { psl := j.psl, jar := (PersistentJar.Cookies E F j u t0 t1).2.jar, backend := b2 }
          u t2 t3).1).Perm (PersistentJar.Cookies E F j u t0 t1).1 ↔
        ServesBack E (E.Jar_Cookies j.jar u t0).2 u
          (d.entries.map (fun p => ({ Name := p.2.Name, Value := p.2.Value } : Cookie)))
          t1 t2) := by
  have hfirst : PersistentJar.Cookies E F j u t0 t1 =
      (d.entries.map (fun p => ({ Name := p.2.Name, Value := p.2.Value } : Cookie)),
        { psl := j.psl,
          jar := E.Jar_setCookies (E.Jar_Cookies j.jar u t0).2 u
            (d.entries.map (fun p => ({ Name := p.2.Name, Value := p.2.Value } : Cookie))) t1,
          backend := (storage.load F j.backend key).1 }) :=
    Cookies_loaded E F j u t0 t1 key d (hnone hempty) hkey hload
  have hsecond := Cookies_failing_store E F2
    { psl := j.psl, jar := (PersistentJar.Cookies E F j u t0 t1).2.jar, backend := b2 }
    u t2 t3 key hkey hfail
  refine ⟨?_, ?_, ?_, hsecond.1, hsecond.2.1, hsecond.2.2, ?_⟩
  · rw [hfirst]
  · rw [hfirst]
    simpa using hne
  · rw [hfirst]
  · rw [hsecond.1]
    unfold ServesBack
    rw [hfirst]

/-! ## The legacy import -/

theorem lookup_singleton (a b : String) (e : entry) :
    (AList.singleton a e : Doc).lookup b = if b = a then some e else none := by
  by_cases h : b = a
  · subst h
    simp [AList.singleton, AList.lookup, List.dlookup]
  · have h2 : ¬ a = b := fun h3 => h h3.symm
    simp [AList.singleton, AList.lookup, List.dlookup, h, h2]

theorem loadEntry_skipped (E : Engine π ρ) (psl : π) (entries : Entries) (e : entry)
    (hskip : skipped E e = true) : loadEntry E psl entries e = entries := by
  unfold skipped at hskip
  unfold loadEntry
  by_cases hd : e.Domain = ""
  · simp [hd]
  · cases hc : E.canonicalHost e.Domain with
    | error err => simp [hd]
    | ok host => simp [hd, hc] at hskip

theorem lookupEntry_loadEntry (E : Engine π ρ) (psl : π) (entries : Entries) (e : entry)
    (key id : String) :
    lookupEntry (loadEntry E psl entries e) key id =
      if importedAt E psl key id e = true then some e else lookupEntry entries key id := by
  unfold importedAt loadEntry
  by_cases hd : e.Domain = ""
  · simp [hd]
  · cases hc : E.canonicalHost e.Domain with
    | error err => simp [hd]
    | ok host =>
      by_cases hk : E.jarKey host psl = key
      · subst hk
        cases hl : entries.lookup (E.jarKey host psl) with
        | none =>
          by_cases hi : E.entry_id e = id
          · simp [hd, hl, hi, lookupEntry, AList.lookup_insert, lookup_singleton]
          · have hi2 : ¬ id = E.entry_id e := fun h => hi h.symm
            simp [hd, hl, hi, hi2, lookupEntry, AList.lookup_insert, lookup_singleton]
        | some submap =>
          by_cases hi : E.entry_id e = id
          · subst hi
            simp [hd, hl, lookupEntry, AList.lookup_insert]
          · have hi2 : id ≠ E.entry_id e := fun h => hi h.symm
            simp [hd, hl, hi, lookupEntry, AList.lookup_insert, AList.lookup_insert_ne hi2]
      · have hk2 : key ≠ E.jarKey host psl := fun h => hk h.symm
        cases hl : entries.lookup (E.jarKey host psl) with
        | none => simp [hd, hl, hk, lookupEntry, AList.lookup_insert_ne hk2]
        | some submap => simp [hd, hl, hk, lookupEntry, AList.lookup_insert_ne hk2]

theorem getLast_filter_cons {α : Type} (p : α → Bool) (a : α) (l : List α) :
    ((a :: l).filter p).getLast? =
      match (l.filter p).getLast? with
      | some r => some r
      | none => if p a = true then some a else none := by
  by_cases h : p a = true
  · rw [List.filter_cons_of_pos h]
    cases hl : l.filter p with
    | nil => simp [h]
    | cons b t =>
      obtain ⟨x, hx⟩ : ∃ x, (b :: t).getLast? = some x :=
        ⟨_, List.getLast?_eq_getLast _ (List.cons_ne_nil b t)⟩
      rw [List.getLast?_cons_cons, hx]
  · rw [List.filter_cons_of_neg h]
    cases hl : (l.filter p).getLast? <;> simp [h]

theorem lookupEntry_foldl (E : Engine π ρ) (psl : π) (records : List entry)
    (entries : Entries) (key id : String) :
    lookupEntry (records.foldl (loadEntry E psl) entries) key id =
      match (records.filter (importedAt E psl key id)).getLast? with
      | some r => some r
      | none => lookupEntry entries key id := by
  induction records generalizing entries with
  | nil => simp
  | cons a l ih =>
    rw [List.foldl_cons, ih, getLast_filter_cons, lookupEntry_loadEntry]
    cases hl : (l.filter (importedAt E psl key id)).getLast? with
    | some r => rfl
    | none =>
      by_cases h : importedAt E psl key id a = true <;> simp [h]

theorem foldl_loadEntry_filter (E : Engine π ρ) (psl : π) (records : List entry)
    (entries : Entries) :
    records.foldl (loadEntry E psl) entries =
      (records.filter (fun e => !skipped E e)).foldl (loadEntry E psl) entries := by
  induction records generalizing entries with
  | nil => rfl
  | cons a l ih =>
    by_cases h : skipped E a = true
    · have hf : (a :: l).filter (fun e => !skipped E e) = l.filter (fun e => !skipped E e) := by
        simp [List.filter_cons, h]
      rw [List.foldl_cons, loadEntry_skipped E psl entries a h, hf]
      exact ih entries
    · have hf : (a :: l).filter (fun e => !skipped E e) =
          a :: l.filter (fun e => !skipped E e) := by
        simp [List.filter_cons, h]
      rw [List.foldl_cons, hf, List.foldl_cons]
      exact ih _

theorem keys_count_of_lookup (m : Doc) (id : String) (e : entry)
    (h : m.lookup id = some e) : m.keys.count id = 1 := by
  have hmem : id ∈ m.keys := by
    rw [← AList.mem_keys, ← AList.lookup_isSome, h]
    rfl
  exact List.count_eq_one_of_mem m.keys_nodup hmem

/-- C9: after `LoadFromFile` of a decoded list of records, from any jar, the entry held under
a partition key and an identity is the last record of the list that is imported there (non-empty
domain with a canonical host of that key, and that identity), whatever was held before; it is the
entry held before only when no record is imported there.  In particular, when identities are
derived from (name, domain, path) and `r1` comes before `r2` with the same name, domain and
path, `r2` being importable and the last such record, the partition holds under that identity
exactly one entry, and it is `r2`, with the value of `r2`. -/
theorem LoadFromFile_last_wins (E : Engine π ρ) (j : PersistentJar π ρ σ)
    (records : List entry) (key id : String) :
    lookupEntry (PersistentJar.LoadFromFile E j (.decoded records)).1.jar.entries key id =
        (match (records.filter (importedAt E j.psl key id)).getLast? with
          | some r => some r
          | none => lookupEntry j.jar.entries key id) ∧
      ∀ (front mid back : List entry) (r1 r2 : entry) (host : String),
        IdFromNameDomainPath E →
        r1.Name = r2.Name → r1.Domain = r2.Domain → r1.Path = r2.Path →
        r2.Domain ≠ "" → E.canonicalHost r2.Domain = .ok host →
        (∀ r ∈ back, importedAt E j.psl (E.jarKey host j.psl) (E.entry_id r2) r = false) →
        records = front ++ r1 :: mid ++ r2 :: back →
        ∃ m : Doc,
          (PersistentJar.LoadFromFile E j (.decoded records)).1.jar.entries.lookup
              (E.jarKey host j.psl) = some m ∧
            m.lookup (E.entry_id r1) = some r2 ∧
            m.keys.count (E.entry_id r1) = 1 ∧
            ∀ e, m.lookup (E.entry_id r1) = some e → e.Value = r2.Value := by
  have hgen : ∀ k i,
      lookupEntry (PersistentJar.LoadFromFile E j (.decoded records)).1.jar.entries k i =
        (match (records.filter (importedAt E j.psl k i)).getLast? with
          | some r => some r
          | none => lookupEntry j.jar.entries k i) := by
    intro k i
    exact lookupEntry_foldl E j.psl records j.jar.entries k i
  refine ⟨hgen key id, ?_⟩
  intro front mid back r1 r2 host hid hn hdm hp hd hc hback hrec
  have hidr : E.entry_id r1 = E.entry_id r2 := hid r1 r2 hn hdm hp
  have h2 : importedAt E j.psl (E.jarKey host j.psl) (E.entry_id r2) r2 = true := by
    simp [importedAt, hd, hc]
  have hfb : back.filter (importedAt E j.psl (E.jarKey host j.psl) (E.entry_id r2)) = [] := by
    rw [List.filter_eq_nil_iff]
    intro r hr
    simp [hback r hr]
  have hlast : (records.filter
      (importedAt E j.psl (E.jarKey host j.psl) (E.entry_id r2))).getLast? = some r2 := by
    have hrec2 : records = (front ++ r1 :: mid) ++ r2 :: back := by
      simp [hrec]
    rw [hrec2, List.filter_append, List.filter_cons_of_pos h2, hfb, List.getLast?_append]
    simp
  have hl := hgen (E.jarKey host j.psl) (E.entry_id r2)
  rw [hlast] at hl
  simp only [] at hl
  unfold lookupEntry at hl
  cases hm : (PersistentJar.LoadFromFile E j (.decoded records)).1.jar.entries.lookup
      (E.jarKey host j.psl) with
  | none => rw [hm] at hl; simp at hl
  | some m =>
    rw [hm] at hl
    have hl2 : m.lookup (E.entry_id r2) = some r2 := by simpa using hl
    refine ⟨m, rfl, ?_, ?_, ?_⟩
    · rw [hidr]; exact hl2
    · rw [hidr]; exact keys_count_of_lookup m _ r2 hl2
    · intro e he
      rw [hidr, hl2] at he
      cases he
      rfl

/-- C10: `LoadFromFile` of a decoded list returns no error; a record whose domain is empty or
has no canonical host changes no partition; and the state after the load is the state after the
load of the list without such records, so the records before and after a skipped one are
imported all the same. -/
theorem LoadFromFile_skip_invalid (E : Engine π ρ) (j : PersistentJar π ρ σ)
    (records : List entry) :
    (PersistentJar.LoadFromFile E j (.decoded records)).2 = none ∧
      (∀ e, (skipped E e = true ↔
        (e.Domain = "" ∨ ∃ err, E.canonicalHost e.Domain = .error err))) ∧
      (∀ e entries, skipped E e = true → loadEntry E j.psl entries e = entries) ∧
      (PersistentJar.LoadFromFile E j (.decoded records)).1 =
        (PersistentJar.LoadFromFile E j
          (.decoded (records.filter (fun e => !skipped E e)))).1 ∧
      (∀ front back e, skipped E e = true → records = front ++ e :: back →
        (PersistentJar.LoadFromFile E j (.decoded records)).1 =
          (PersistentJar.LoadFromFile E j (.decoded (front ++ back))).1) := by
  refine ⟨rfl, ?_, ?_, ?_, ?_⟩
  · intro e
    unfold skipped
    by_cases hd : e.Domain = ""
    · simp [hd]
    · cases hc : E.canonicalHost e.Domain <;> simp [hd]
  · intro e entries h
    exact loadEntry_skipped E j.psl entries e h
  · unfold PersistentJar.LoadFromFile
    simp only []
    rw [← foldl_loadEntry_filter]
  · intro front back e h hrec
    unfold PersistentJar.LoadFromFile
    simp only []
    rw [hrec, List.foldl_append, List.foldl_cons, loadEntry_skipped E j.psl _ e h,
      ← List.foldl_append]

/-! ## The theorems at concrete inputs -/

/-- C1 at a concrete input: over the unreachable store, after `SetCookies` of `cookieA` and
`cookieB` and then of `cookieC` for `exampleURL`, the document of the last save, made under
`example.com`, holds the entry of `cookieA`. -/
theorem SetCookies_write_through_witness :
    getKey memEngine exampleURL (emptyJar ∅).psl = .ok "example.com" ∧
      ∃ d, (PersistentJar.SetCookies memEngine downStore
            (PersistentJar.SetCookies memEngine downStore (emptyJar ∅) exampleURL
              [cookieA, cookieB] 0) exampleURL [cookieC] 1).backend.calls.getLast? =
            some (Call.save "example.com" (some d)) ∧
        d.lookup "example.com;/;a" = some (memEntry exampleURL cookieA) :=
  ⟨rfl,
    (SetCookies_write_through memEngine downStore (emptyJar ∅) exampleURL [cookieA, cookieB]
      [cookieC] 0 1 "example.com" rfl).2.2.2.2 "example.com;/;a" (memEntry exampleURL cookieA)
      (by decide)⟩

/-- C2 at a concrete input: with `exampleDoc` in the store and nothing in memory, the first
`Cookies(exampleURL)` gives the cookie `sid=1` of `exampleDoc`, and a second one made over the
unreachable store gives what the in-memory jar gives, without a call on the backend. -/
theorem Cookies_backfill_witness :
    (storage.load memStore (emptyJar exampleRemote).backend "example.com").2 = .ok exampleDoc ∧
      exampleDoc.entries ≠ [] ∧
      (∀ (s : storage Entries) (k : String),
        ∃ err, (storage.load downStore s k).2 = .error err) ∧
      (PersistentJar.Cookies memEngine memStore (emptyJar exampleRemote) exampleURL 0 1).1 =
        exampleDoc.entries.map
          (fun p => ({ Name := p.2.Name, Value := p.2.Value } : Cookie)) ∧
      (PersistentJar.Cookies memEngine downStore
          { psl := (emptyJar exampleRemote).psl,
            jar := (PersistentJar.Cookies memEngine memStore (emptyJar exampleRemote) exampleURL
              0 1).2.jar,
            backend := freshBackend }
          exampleURL 2 3).1 =
        (memEngine.Jar_Cookies
          (PersistentJar.Cookies memEngine memStore (emptyJar exampleRemote) exampleURL
            0 1).2.jar exampleURL 2).1 :=
  ⟨rfl, by decide, fun _ _ => ⟨"unavailable", rfl⟩,
    (Cookies_backfill memEngine memStore downStore (emptyJar exampleRemote) exampleURL 0 1 2 3
      "example.com" exampleDoc rfl (fun _ => rfl) rfl rfl (by decide)
      (fun _ _ => ⟨"unavailable", rfl⟩) freshBackend).1,
    (Cookies_backfill memEngine memStore downStore (emptyJar exampleRemote) exampleURL 0 1 2 3
      "example.com" exampleDoc rfl (fun _ => rfl) rfl rfl (by decide)
      (fun _ _ => ⟨"unavailable", rfl⟩) freshBackend).2.2.2.1⟩

/-- C2 as stated fails: with nothing in memory and `twoPathDoc` in the store, whose two entries
are named `sid` with paths `/` and `/a` and values `1` and `2`, the first `Cookies(exampleURL)`
returns the two cookies `sid=2` and `sid=1`; the backfill applies them as cookies of one
identity, and a second `Cookies(exampleURL)` made over the unreachable store returns `sid=1`
alone: `sid=2` is not returned again. -/
theorem Cookies_backfill_counterexample :
    (emptyJar twoPathRemote).jar.entries = ∅ ∧
      (storage.load memStore (emptyJar twoPathRemote).backend "example.com").2 =
        .ok twoPathDoc ∧
      twoPathDoc.entries.length = 2 ∧
      (PersistentJar.Cookies memEngine memStore (emptyJar twoPathRemote) exampleURL 0 1).1 =
        [{ Name := "sid", Value := "2" }, { Name := "sid", Value := "1" }] ∧
      (PersistentJar.Cookies memEngine downStore
          { psl := (emptyJar twoPathRemote).psl,
            jar := (PersistentJar.Cookies memEngine memStore (emptyJar twoPathRemote) exampleURL
              0 1).2.jar,
            backend := freshBackend }
          exampleURL 2 3).1 = [{ Name := "sid", Value := "1" }] ∧
      ¬ ((PersistentJar.Cookies memEngine downStore
          { psl := (emptyJar twoPathRemote).psl,
            jar := (PersistentJar.Cookies memEngine memStore (emptyJar twoPathRemote) exampleURL
              0 1).2.jar,
            backend := freshBackend }
          exampleURL 2 3).1).Perm
        (PersistentJar.Cookies memEngine memStore (emptyJar twoPathRemote) exampleURL 0 1).1 ∧
      ¬ (∀ c ∈ (PersistentJar.Cookies memEngine memStore (emptyJar twoPathRemote) exampleURL
            0 1).1,
          c ∈ (PersistentJar.Cookies memEngine downStore
            { psl := (emptyJar twoPathRemote).psl,
              jar := (PersistentJar.Cookies memEngine memStore (emptyJar twoPathRemote)
                exampleURL 0 1).2.jar,
              backend := freshBackend }
            exampleURL 2 3).1) := by
  have h1 : (PersistentJar.Cookies memEngine memStore (emptyJar twoPathRemote) exampleURL
      0 1).1 = [{ Name := "sid", Value := "2" }, { Name := "sid", Value := "1" }] := rfl
  have h2 : (PersistentJar.Cookies memEngine downStore
      { psl := (emptyJar twoPathRemote).psl,
        jar := (PersistentJar.Cookies memEngine memStore (emptyJar twoPathRemote) exampleURL
          0 1).2.jar,
        backend := freshBackend }
      exampleURL 2 3).1 = [{ Name := "sid", Value := "1" }] := rfl
  refine ⟨rfl, rfl, rfl, h1, h2, ?_, ?_⟩
  · rw [h1, h2]
    decide
  · rw [h1, h2]
    decide

/-- C3 at a concrete input: with `exampleDoc` in the store and nothing in memory,
`Cookies(exampleURL)` gives one cookie and records one load. -/
theorem Cookies_read_through_witness :
    (memEngine.Jar_Cookies (emptyJar exampleRemote).jar exampleURL 0).1 = [] ∧
      (PersistentJar.Cookies memEngine memStore (emptyJar exampleRemote) exampleURL 0 1).1.length =
        exampleDoc.entries.length ∧
      (PersistentJar.Cookies memEngine memStore (emptyJar exampleRemote) exampleURL
          0 1).2.backend.calls =
        (emptyJar exampleRemote).backend.calls ++ [Call.load "example.com"] :=
  ⟨rfl,
    (Cookies_read_through memEngine memStore (emptyJar exampleRemote) exampleURL 0 1
      "example.com" exampleDoc rfl rfl rfl).2.1,
    (Cookies_read_through memEngine memStore (emptyJar exampleRemote) exampleURL 0 1
      "example.com" exampleDoc rfl rfl rfl).2.2.2⟩

/-- C4 at a concrete input: with `cookieA` in memory, `Cookies(exampleURL)` gives what the
in-memory jar gives and leaves the backend alone, over the working store and over the
unreachable one. -/
theorem Cookies_fast_path_witness :
    (memEngine.Jar_Cookies warmJar.jar exampleURL 1).1 ≠ [] ∧
      (PersistentJar.Cookies memEngine memStore warmJar exampleURL 1 2).1 =
        (memEngine.Jar_Cookies warmJar.jar exampleURL 1).1 ∧
      (PersistentJar.Cookies memEngine memStore warmJar exampleURL 1 2).2.backend =
        warmJar.backend :=
  ⟨by decide,
    (Cookies_fast_path memEngine memStore downStore warmJar freshBackend exampleURL 1 2 3
      (by decide)).1,
    (Cookies_fast_path memEngine memStore downStore warmJar freshBackend exampleURL 1 2 3
      (by decide)).2.1⟩

/-- C5 at a concrete input: with nothing in memory and the store unreachable,
`Cookies(exampleURL)` gives the empty list after one load, and leaves the jar as the in-memory
read left it. -/
theorem Cookies_miss_tolerance_witness :
    (memEngine.Jar_Cookies (emptyJar ∅).jar exampleURL 0).1 = [] ∧
      (storage.load downStore (emptyJar ∅).backend "example.com").2 = .error "unavailable" ∧
      (PersistentJar.Cookies memEngine downStore (emptyJar ∅) exampleURL 0 1).1 = [] ∧
      (PersistentJar.Cookies memEngine downStore (emptyJar ∅) exampleURL 0 1).1.length = 0 ∧
      (PersistentJar.Cookies memEngine downStore (emptyJar ∅) exampleURL 0 1).2.backend.calls =
        (emptyJar ∅).backend.calls ++ [Call.load "example.com"] ∧
      (PersistentJar.Cookies memEngine downStore (emptyJar ∅) exampleURL 0 1).2.jar =
        (memEngine.Jar_Cookies (emptyJar ∅).jar exampleURL 0).2 :=
  ⟨rfl, rfl,
    (Cookies_miss_tolerance memEngine downStore (emptyJar ∅) exampleURL 0 1 rfl).2
      "example.com" "unavailable" rfl rfl⟩

/-- C9 at a concrete input: for a file of two records named `sid` for `example.com`, with
values `1` and then `2`, the partition `example.com` holds exactly one entry under their
identity, the second record. -/
theorem LoadFromFile_last_wins_witness :
    ∃ m : Doc,
      (PersistentJar.LoadFromFile memEngine (emptyJar ∅)
          (.decoded [exampleEntry "sid" "1" "example.com",
            exampleEntry "sid" "2" "example.com"])).1.jar.entries.lookup
          (memEngine.jarKey "example.com" (emptyJar ∅).psl) = some m ∧
        m.lookup (memEngine.entry_id (exampleEntry "sid" "1" "example.com")) =
          some (exampleEntry "sid" "2" "example.com") ∧
        m.keys.count (memEngine.entry_id (exampleEntry "sid" "1" "example.com")) = 1 ∧
        ∀ e, m.lookup (memEngine.entry_id (exampleEntry "sid" "1" "example.com")) = some e →
          e.Value = (exampleEntry "sid" "2" "example.com").Value :=
  (LoadFromFile_last_wins memEngine (emptyJar ∅)
      [exampleEntry "sid" "1" "example.com", exampleEntry "sid" "2" "example.com"]
      "example.com" "example.com;/;sid").2 [] [] []
    (exampleEntry "sid" "1" "example.com") (exampleEntry "sid" "2" "example.com") "example.com"
    (by intro a b h1 h2 h3; simp [memEngine, memId, h1, h2, h3])
    rfl rfl rfl (by decide) rfl (by simp) rfl

/-- C10 at a concrete input: a file with a record of empty domain between two records for
`example.com` loads like the file without it. -/
theorem LoadFromFile_skip_invalid_witness :
    skipped memEngine (exampleEntry "junk" "0" "") = true ∧
      (PersistentJar.LoadFromFile memEngine (emptyJar ∅)
          (.decoded [exampleEntry "a" "1" "example.com", exampleEntry "junk" "0" "",
            exampleEntry "b" "2" "example.com"])).1 =
        (PersistentJar.LoadFromFile memEngine (emptyJar ∅)
          (.decoded ([exampleEntry "a" "1" "example.com"] ++
            [exampleEntry "b" "2" "example.com"]))).1 :=
  ⟨rfl,
    (LoadFromFile_skip_invalid memEngine (emptyJar ∅)
      [exampleEntry "a" "1" "example.com", exampleEntry "junk" "0" "",
        exampleEntry "b" "2" "example.com"]).2.2.2.2
      [exampleEntry "a" "1" "example.com"] [exampleEntry "b" "2" "example.com"]
      (exampleEntry "junk" "0" "") rfl rfl⟩

end Cookiejar
